import Mathlib

/-!
Verification of the Composer API helpers (`composer_api.py`, `list_dag_runs.py`,
`check_dag_status.py`): the execute/poll protocol, the log-cursor bookkeeping,
and the log-to-data extraction layered on top of it.

The Python sources are shallowly embedded:
* JSON values are the inductive `Json`; `jsonLoads` models the interface of the
  standard library function `json.loads` (an executable JSON parser returning `none`
  on any malformed input, as `json.loads` raises there).
* Strings are processed through their character lists because the embedding
  only needs code-point-level behavior, matching the semantics of Python `str`.
* Exceptions are `Except`; functions that cannot raise are total.
* The wall-clock timeout check at the top of each polling loop is embedded by
  passing the finite list of backend responses that arrive before the budget
  elapses: exhausting the list is exactly the `time.time() - start > timeout`
  branch firing.
-/

/-- JSON values as produced by `json.loads`.  Numbers keep their source lexeme:
none of the verified code inspects numeric values, only truthiness. -/
inductive Json where
  | null : Json
  | bool (b : Bool) : Json
  | num (lexeme : String) : Json
  | str (s : String) : Json
  | arr (elems : List Json) : Json
  | obj (pairs : List (String × Json)) : Json

/-- The `{` character, written via its code point. -/
def lbrace : Char := Char.ofNat 123

/-- The `}` character, written via its code point. -/
def rbrace : Char := Char.ofNat 125

/-- JSON insignificant whitespace. -/
def isJsonWs (c : Char) : Bool := c == ' ' || c == '\n' || c == '\t' || c == '\r'

/-- Drop leading JSON whitespace. -/
def skipWs (cs : List Char) : List Char := cs.dropWhile isJsonWs

/-- Value of one hexadecimal digit. -/
def hexVal (c : Char) : Option Nat :=
  if '0' ≤ c ∧ c ≤ '9' then some (c.toNat - '0'.toNat)
  else if 'a' ≤ c ∧ c ≤ 'f' then some (c.toNat - 'a'.toNat + 10)
  else if 'A' ≤ c ∧ c ≤ 'F' then some (c.toNat - 'A'.toNat + 10)
  else none

/-- Parse the body of a JSON string literal (the opening quote already
consumed), accumulating decoded characters; returns the decoded string and the
remaining input.  Raw control characters are rejected as in strict
`json.loads`. -/
def parseStrBody : List Char → List Char → Option (String × List Char)
  | [], _ => none
  | '"' :: rest, acc => some (String.mk acc.reverse, rest)
  | '\\' :: rest, acc =>
    match rest with
    | [] => none
    | e :: rest2 =>
      if e == '"' then parseStrBody rest2 ('"' :: acc)
      else if e == '\\' then parseStrBody rest2 ('\\' :: acc)
      else if e == '/' then parseStrBody rest2 ('/' :: acc)
      else if e == 'n' then parseStrBody rest2 ('\n' :: acc)
      else if e == 't' then parseStrBody rest2 ('\t' :: acc)
      else if e == 'r' then parseStrBody rest2 ('\r' :: acc)
      else if e == 'b' then parseStrBody rest2 (Char.ofNat 8 :: acc)
      else if e == 'f' then parseStrBody rest2 (Char.ofNat 12 :: acc)
      else if e == 'u' then
        match rest2 with
        | h1 :: h2 :: h3 :: h4 :: rest3 =>
          match hexVal h1, hexVal h2, hexVal h3, hexVal h4 with
          | some a, some b, some c, some d =>
            parseStrBody rest3 (Char.ofNat (((a * 16 + b) * 16 + c) * 16 + d) :: acc)
          | _, _, _, _ => none
        | _ => none
      else none
  | c :: rest, acc => if c.toNat < 32 then none else parseStrBody rest (c :: acc)

/-- Characters that may appear in a JSON number lexeme. -/
def isNumChar (c : Char) : Bool :=
  c.isDigit || c == '-' || c == '+' || c == '.' || c == 'e' || c == 'E'

/-- Consume one or more digits, returning the remaining input. -/
def chompDigits1 (cs : List Char) : Option (List Char) :=
  match cs with
  | c :: rest => if c.isDigit then some (rest.dropWhile Char.isDigit) else none
  | [] => none

/-- Check an optional JSON exponent part consuming the whole remaining lexeme. -/
def checkExpPart (cs : List Char) : Bool :=
  match cs with
  | [] => true
  | e :: rest =>
    if e == 'e' || e == 'E' then
      let rest2 := match rest with
        | s :: r => if s == '+' || s == '-' then r else s :: r
        | [] => []
      match chompDigits1 rest2 with
      | some [] => true
      | _ => false
    else false

/-- Check an optional JSON fraction part followed by an optional exponent. -/
def checkFracPart (cs : List Char) : Bool :=
  match cs with
  | '.' :: rest =>
    match chompDigits1 rest with
    | some r => checkExpPart r
    | none => false
  | _ => checkExpPart cs

/-- Validate a JSON number lexeme: `-? (0 | [1-9][0-9]*) frac? exp?`. -/
def validNumLex (cs0 : List Char) : Bool :=
  let cs := match cs0 with
    | '-' :: r => r
    | _ => cs0
  match cs with
  | '0' :: r => checkFracPart r
  | c :: r => if c.isDigit then checkFracPart (r.dropWhile Char.isDigit) else false
  | [] => false

mutual

/-- Parse one JSON value.  The fuel bounds recursion depth; `jsonLoads` supplies
enough for any input of the given length. -/
def parseVal : Nat → List Char → Option (Json × List Char)
  | 0, _ => none
  | fuel + 1, cs =>
    match cs with
    | [] => none
    | c :: rest =>
      if c == '"' then
        match parseStrBody rest [] with
        | some (s, r) => some (.str s, r)
        | none => none
      else if c == '[' then
        match skipWs rest with
        | c1 :: r1 => if c1 == ']' then some (.arr [], r1) else parseArrRest fuel (c1 :: r1) []
        | [] => none
      else if c == lbrace then
        match skipWs rest with
        | c1 :: r1 => if c1 == rbrace then some (.obj [], r1) else parseObjRest fuel (c1 :: r1) []
        | [] => none
      else if c == 't' then
        match rest with
        | 'r' :: 'u' :: 'e' :: r => some (.bool true, r)
        | _ => none
      else if c == 'f' then
        match rest with
        | 'a' :: 'l' :: 's' :: 'e' :: r => some (.bool false, r)
        | _ => none
      else if c == 'n' then
        match rest with
        | 'u' :: 'l' :: 'l' :: r => some (.null, r)
        | _ => none
      else if c.isDigit || c == '-' then
        let lex := (c :: rest).takeWhile isNumChar
        if validNumLex lex then some (.num (String.mk lex), (c :: rest).dropWhile isNumChar)
        else none
      else none

/-- Parse the elements of a nonempty JSON array (after the opening bracket). -/
def parseArrRest : Nat → List Char → List Json → Option (Json × List Char)
  | 0, _, _ => none
  | fuel + 1, cs, acc =>
    match parseVal fuel (skipWs cs) with
    | none => none
    | some (j, rest) =>
      match skipWs rest with
      | c :: r =>
        if c == ',' then parseArrRest fuel r (j :: acc)
        else if c == ']' then some (.arr (j :: acc).reverse, r)
        else none
      | [] => none

/-- Parse the members of a nonempty JSON object (after the opening brace). -/
def parseObjRest : Nat → List Char → List (String × Json) → Option (Json × List Char)
  | 0, _, _ => none
  | fuel + 1, cs, acc =>
    match skipWs cs with
    | c :: r =>
      if c == '"' then
        match parseStrBody r [] with
        | some (k, r2) =>
          match skipWs r2 with
          | c2 :: r3 =>
            if c2 == ':' then
              match parseVal fuel (skipWs r3) with
              | some (v, r4) =>
                match skipWs r4 with
                | c3 :: r5 =>
                  if c3 == ',' then parseObjRest fuel r5 ((k, v) :: acc)
                  else if c3 == rbrace then some (.obj ((k, v) :: acc).reverse, r5)
                  else none
                | [] => none
              | none => none
            else none
          | [] => none
        | none => none
      else none
    | [] => none

end

/-- Interface model of the Python function `json.loads`: parse a complete JSON document,
`none` where `json.loads` raises. -/
def jsonLoads (s : String) : Option Json :=
  match parseVal (2 * s.length + 4) (skipWs s.data) with
  | some (j, rest) => if (skipWs rest).isEmpty then some j else none
  | none => none

/-- Python `str.find(c)`: index of the first occurrence, `None` for `-1`. -/
def strFind (s : String) (c : Char) : Option Nat :=
  s.data.findIdx? (· == c)

/-- Python `str.rfind(c)`: index of the last occurrence, `None` for `-1`. -/
def strRFind (s : String) (c : Char) : Option Nat :=
  (s.data.reverse.findIdx? (· == c)).map (fun i => s.data.length - 1 - i)

/-- Python slice `s[a:b]` (for `a ≤ b`). -/
def strSlice (s : String) (a b : Nat) : String :=
  String.mk ((s.data.drop a).take (b - a))

/-- Python `"\n".join(logs)`. -/
def joinLines : List String → String
  | [] => ""
  | [s] => s
  | s :: rest => s ++ "\n" ++ joinLines rest

/-- `list_dag_runs.list_dag_runs`, lines 91-102: extract the JSON array the CLI
printed into the joined log blob.  Locate the first `[` and the last `]`;
bail out to an empty list when a bracket is missing or mis-ordered; parse
failure is caught and also yields an empty list. -/
def extract_runs (payload : String) : Json :=
  match strFind payload '[', strRFind payload ']' with
  | some first, some last =>
    if last ≤ first then .arr []
    else
      match jsonLoads (strSlice payload first (last + 1)) with
      | some runs => runs
      | none => .arr []
  | _, _ => .arr []

/-- The same extraction applied to the accumulated log lines, as
`list_dag_runs.list_dag_runs` does after polling. -/
def list_dag_runs_extract (logs : List String) : Json :=
  extract_runs (joinLines logs)

/-- One log line of a `pollAirflowCommand` response. -/
structure LogLine where
  lineNumber : Nat
  content : String
  deriving DecidableEq

/-- The `exitInfo` substructure of a final poll response. -/
structure ExitInfo where
  exitCode : Option Int
  error : Option String
  deriving DecidableEq

/-- One backend response to a `pollAirflowCommand` fetch.  A missing `output`
key is the empty list (`pd.get("output", [])`), a missing `outputEnd` is
`false`, and a missing or null `exitInfo` is `none`
(`pd.get("exitInfo", {}) or {}`). -/
structure PollResponse where
  output : List LogLine
  outputEnd : Bool
  exitInfo : Option ExitInfo
  deriving DecidableEq

/-- The `for line in pd.get("output", [])` body shared by all three pollers:
append the `content` of each line to the log buffer and set the cursor to
the `lineNumber + 1` of that line. -/
def consumeOutput (next_line : Nat) (logs : List String) (output : List LogLine) :
    Nat × List String :=
  output.foldl (fun st line => (line.lineNumber + 1, st.2 ++ [line.content])) (next_line, logs)

/-- The cursor value after one response batch, as updated by `consumeOutput`. -/
def cursorStep (next_line : Nat) (output : List LogLine) : Nat :=
  (consumeOutput next_line [] output).1

/-- The sequence of `nextLineNumber` values a polling session sends: the
starting value followed by the value after each consumed batch. -/
def cursorTrace (start : Nat) : List (List LogLine) → List Nat
  | [] => [start]
  | b :: bs => start :: cursorTrace (cursorStep start b) bs

/-- Largest `lineNumber` in a batch (0 for an empty batch). -/
def batchMaxLine (output : List LogLine) : Nat :=
  (output.map LogLine.lineNumber).foldl Nat.max 0

/-- The timeout message of `composer_api.trigger_dag_run`, line 83. -/
def timeoutMsgTrigger (timeout_sec : Nat) : String :=
  "Timeout after " ++ toString timeout_sec ++ "s while waiting for Airflow CLI to finish."

/-- The timeout message of `check_dag_status._poll_airflow_command`, line 64. -/
def timeoutMsgCheck (timeout_sec : Nat) : String :=
  "Timeout after " ++ toString timeout_sec ++ "s waiting for CLI to finish."

/-- The `TimeoutError` message of `list_dag_runs._poll_airflow_command`, line 55. -/
def timeoutMsgLR (timeout : Nat) : String :=
  "Polling timed out after " ++ toString timeout ++ "s"

/-- Result of the polling section of `composer_api.trigger_dag_run`
(lines 75-116): exit info, accumulated logs, and which break left the loop
(`terminal = true` for the `outputEnd` break, `false` for the timeout break).
The timeout break leaves `exit_code = None` and sets `last_error`. -/
structure TriggerPollResult where
  exit_code : Option Int
  exit_error : Option String
  logs : List String
  terminal : Bool
  deriving DecidableEq

/-- Result dict of `check_dag_status._poll_airflow_command` (line 89). -/
structure PollOut where
  logs : List String
  exit_code : Option Int
  error : Option String
  deriving DecidableEq

/-- Result dict of `list_dag_runs._poll_airflow_command` (line 73). -/
structure LRPollResult where
  logs : List String
  exitInfo : ExitInfo
  deriving DecidableEq

/-- The polling loop of `composer_api.trigger_dag_run`, lines 81-108, on the
responses received before the timeout budget elapses. -/
def trigger_poll (timeout_sec : Nat) : List PollResponse → Nat → List String → TriggerPollResult
  | [], _, logs => ⟨none, some (timeoutMsgTrigger timeout_sec), logs, false⟩
  | pd :: rest, next_line, logs =>
    let st := consumeOutput next_line logs pd.output
    if pd.outputEnd then
      let ei := pd.exitInfo.getD ⟨none, none⟩
      ⟨ei.exitCode, ei.error, st.2, true⟩
    else trigger_poll timeout_sec rest st.1 st.2

/-- `trigger_poll` from its initial state: cursor 0 (line 75), empty buffer. -/
def trigger_poll_run (timeout_sec : Nat) (rs : List PollResponse) : TriggerPollResult :=
  trigger_poll timeout_sec rs 0 []

/-- `check_dag_status._poll_airflow_command`, lines 62-89. -/
def poll_airflow_command_check (timeout_sec : Nat) :
    List PollResponse → Nat → List String → PollOut
  | [], _, logs => ⟨logs, none, some (timeoutMsgCheck timeout_sec)⟩
  | pj :: rest, next_line, logs =>
    let st := consumeOutput next_line logs pj.output
    if pj.outputEnd then
      let ei := pj.exitInfo.getD ⟨none, none⟩
      ⟨st.2, ei.exitCode, ei.error⟩
    else poll_airflow_command_check timeout_sec rest st.1 st.2

/-- `check_dag_status._poll_airflow_command` from its initial state:
cursor 0 (line 56), empty buffer. -/
def poll_airflow_command_check_run (timeout_sec : Nat) (rs : List PollResponse) : PollOut :=
  poll_airflow_command_check timeout_sec rs 0 []

/-- `list_dag_runs._poll_airflow_command`, lines 53-75.  On timeout this
variant raises `TimeoutError` (line 55), discarding the accumulated logs. -/
def poll_airflow_command_lr (timeout : Nat) :
    List PollResponse → Nat → List String → Except String LRPollResult
  | [], _, _ => .error (timeoutMsgLR timeout)
  | j :: rest, next_line, logs =>
    let st := consumeOutput next_line logs j.output
    if j.outputEnd then .ok ⟨st.2, j.exitInfo.getD ⟨none, none⟩⟩
    else poll_airflow_command_lr timeout rest st.1 st.2

/-- `list_dag_runs._poll_airflow_command` from its initial state: cursor 1
(line 49: `next_line = 1  # must be positive int`), empty buffer. -/
def poll_airflow_command_lr_run (timeout : Nat) (rs : List PollResponse) :
    Except String LRPollResult :=
  poll_airflow_command_lr timeout rs 1 []

/-- ASCII model of Python `str.lower()` (the states and tokens compared in the
source are ASCII). -/
def strLower (s : String) : String := String.mk (s.data.map Char.toLower)

/-- Model of Python `str.strip()`: drop whitespace from both ends. -/
def strTrim (s : String) : String :=
  String.mk (((s.data.dropWhile Char.isWhitespace).reverse.dropWhile Char.isWhitespace).reverse)

/-- The closed state set of `check_dag_status.get_dag_run_state_by_logical_date`,
line 116 (includes `"none"`). -/
def runStates : List String :=
  ["success", "failed", "running", "queued", "up_for_retry", "up_for_reschedule",
   "skipped", "none"]

/-- The `for line in reversed(out["logs"])` scan of
`check_dag_status.get_dag_run_state_by_logical_date`, lines 118-122, already
applied to the reversed list: stop at the first line whose stripped, lowered
content is a known state. -/
def scanStateTokens : List String → Option String
  | [] => none
  | line :: rest =>
    let token := strLower (strTrim line)
    if runStates.contains token then some token else scanStateTokens rest

/-- State detection of `get_dag_run_state_by_logical_date`: scan the log lines
bottom-up for a known state token. -/
def detect_state (logs : List String) : Option String :=
  scanStateTokens logs.reverse

/-- Python truthiness of a JSON-decoded value (`None`, `False`, zero, and empty
containers and strings are falsy). -/
def pyTruthy : Json → Bool
  | .null => false
  | .bool b => b
  | .num lex =>
    !(((lex.data.takeWhile (fun c => c != 'e' && c != 'E')).filter Char.isDigit).all (· == '0'))
  | .str s => !s.isEmpty
  | .arr l => !l.isEmpty
  | .obj l => !l.isEmpty

/-- Python `dict.get` on a decoded JSON object (`json.loads` builds the dict
left to right, so a duplicated key keeps its last value). -/
def jGet (pairs : List (String × Json)) (k : String) : Option Json :=
  (pairs.reverse.find? (fun p => p.1 == k)).map (fun p => p.2)

/-- Python `==` between a JSON-decoded value and a `str`: true only for an
equal string. -/
def jsonIsStr (j : Json) (s : String) : Bool :=
  match j with
  | .str t => t == s
  | _ => false

/-- Python `a or b` on two optional JSON values (a missing key and a falsy
value both fall through to the second operand). -/
def pyOrJson (a b : Option Json) : Option Json :=
  match a with
  | some j => if pyTruthy j then some j else b
  | none => b

/-- Python `(v or "").lower()` for a value fetched from a decoded JSON object:
`""` when the value is missing or falsy, the lowered string when it is a
truthy string, and an `AttributeError` (modelled as `Except.error`) when it is
a truthy non-string. -/
def pyStrLower : Option Json → Except Unit String
  | none => .ok ""
  | some j =>
    if pyTruthy j then
      match j with
      | .str s => .ok (strLower s)
      | _ => .error ()
    else .ok ""

/-- The fields of the early-return dict of
`check_dag_status.get_dag_run_state_by_run_id`, lines 174-181. -/
structure RunIdMatch where
  state : String
  logical_date : Option Json

/-- The `for r in arr` loop of `get_dag_run_state_by_run_id`, lines 169-181:
return the state summary of the first record whose `run_id` equals the target;
a non-dict record, or a truthy non-string state, raises. -/
def findRunInArr (rid : String) : List Json → Except Unit (Option RunIdMatch)
  | [] => .ok none
  | r :: rest =>
    match r with
    | .obj ps =>
      if jsonIsStr ((jGet ps "run_id").getD .null) rid then
        match pyStrLower (jGet ps "state") with
        | .ok st =>
          .ok (some ⟨st, pyOrJson (jGet ps "logical_date") (jGet ps "execution_date")⟩)
        | .error e => .error e
      else findRunInArr rid rest
    | _ => .error ()

/-- The `try` block of `get_dag_run_state_by_run_id`, lines 161-183: join the
logs, extract the bracketed substring, parse it, and search it for the target
run.  The first component is the `parsed` flag; an exception anywhere in the
block is `Except.error` (caught by the caller, which then treats `parsed` as
`False`). -/
def tryJsonExtract (rid : String) (logs : List String) :
    Except Unit (Bool × Option RunIdMatch) :=
  let joined := joinLines logs
  match strFind joined '[', strRFind joined ']' with
  | some first, some last =>
    if first < last then
      match jsonLoads (strSlice joined first (last + 1)) with
      | some (.arr rs) =>
        match findRunInArr rid rs with
        | .ok m => .ok (true, m)
        | .error e => .error e
      | some _ => .error ()
      | none => .error ()
    else .ok (false, none)
  | _, _ => .ok (false, none)

/-- The run the JSON path of `get_dag_run_state_by_run_id` would return early
for, if any. -/
def runIdJsonMatch (rid : String) (logs : List String) : Option RunIdMatch :=
  match tryJsonExtract rid logs with
  | .ok (_, m) => m
  | .error _ => none

/-- Python `rid in line` (substring containment). -/
def containsSub (line rid : String) : Bool :=
  line.data.tails.any (fun suffix => rid.data.isPrefixOf suffix)

/-- Python `line.split()` followed by the source expression
`[t.strip() for t in line.split() if t.strip()]`: whitespace-delimited tokens,
no empties. -/
def wsSplitGo : List Char → List Char → List String
  | [], acc => if acc.isEmpty then [] else [String.mk acc.reverse]
  | c :: rest, acc =>
    if c.isWhitespace then
      if acc.isEmpty then wsSplitGo rest [] else String.mk acc.reverse :: wsSplitGo rest []
    else wsSplitGo rest (c :: acc)

/-- Whitespace-delimited tokens of a log line (line 191). -/
def lineTokens (line : String) : List String := wsSplitGo line.data []

/-- The fallback state set of `get_dag_run_state_by_run_id`, line 193 (no
`"none"`, unlike `runStates`). -/
def fallbackStates : List String :=
  ["success", "failed", "running", "queued", "up_for_retry", "up_for_reschedule", "skipped"]

/-- The text-table fallback of `get_dag_run_state_by_run_id`, lines 187-197:
scan forward for a line containing the run id and take its first token that
lowers to a known state; a matching line without such a token does not stop
the scan. -/
def fallbackScanState (rid : String) : List String → Option String
  | [] => none
  | line :: rest =>
    if containsSub line rid then
      match (lineTokens line).filterMap
          (fun t => if fallbackStates.contains (strLower t) then some (strLower t) else none) with
      | f :: _ => some f
      | [] => fallbackScanState rid rest
    else fallbackScanState rid rest

/-- Python `lst[-25:]`. -/
def lastN (n : Nat) (l : List String) : List String := l.drop (l.length - n)

/-- The two dict shapes `get_dag_run_state_by_run_id` returns: the early
return from inside the JSON loop (lines 174-181) and the final return
(lines 199-206). -/
inductive RunIdResult where
  | found (dag_id run_id : String) (logical_date : Option Json) (state : String)
      (exit_code : Option Int) (error : Option String)
  | scanned (dag_id run_id : String) (state : Option String)
      (raw_logs_tail : List String) (exit_code : Option Int) (error : Option String)

/-- The `state` entry of either result dict. -/
def RunIdResult.runState : RunIdResult → Option String
  | .found _ _ _ st _ _ => some st
  | .scanned _ _ st _ _ _ => st

/-- The final return of `get_dag_run_state_by_run_id` when no early JSON match
happened (lines 186-206): text fallback plus the closing dict. -/
def mkRunIdFallbackResult (dag_id rid : String) (out : PollOut) : RunIdResult :=
  .scanned dag_id rid (fallbackScanState rid out.logs) (lastN 25 out.logs)
    out.exit_code out.error

/-- `check_dag_status.get_dag_run_state_by_run_id`, lines 157-206, applied to
the poll result: the JSON path runs only when the exit code is 0 and logs are
nonempty (line 159); an exception or a failed bracket check leaves
`parsed = False` and falls back to the text scan; a successful parse with no
matching record skips the fallback and reports no state. -/
def get_dag_run_state_by_run_id_core (dag_id rid : String) (out : PollOut) : RunIdResult :=
  if out.exit_code == some 0 && !out.logs.isEmpty then
    match tryJsonExtract rid out.logs with
    | .ok (_, some m) => .found dag_id rid m.logical_date m.state out.exit_code out.error
    | .ok (true, none) => .scanned dag_id rid none (lastN 25 out.logs) out.exit_code out.error
    | .ok (false, none) => mkRunIdFallbackResult dag_id rid out
    | .error _ => mkRunIdFallbackResult dag_id rid out
  else mkRunIdFallbackResult dag_id rid out

/-- One run record of the `dags list-runs -o json` output, as consumed by
`list_dag_runs.get_latest_dag_run_status` (lines 105-129): every field the
function reads, each either absent/null (`none`) or carrying the string
(resp. boolean) value. -/
structure RunRec where
  run_id : Option String
  state : Option String
  logical_date : Option String
  execution_date : Option String
  start_date : Option String
  end_date : Option String
  external_trigger : Option Bool
  conf : Option String
  deriving DecidableEq

/-- Python `a or b` on two optional strings: a missing value and an empty
string both fall through to the second operand. -/
def pyOrStr (a b : Option String) : Option String :=
  match a with
  | some s => if s.isEmpty then b else some s
  | none => b

/-- The recency key `_ts` of `get_latest_dag_run_status`, lines 114-115:
`r.get("logical_date") or r.get("execution_date") or r.get("start_date") or ""`. -/
def tsKey (r : RunRec) : String :=
  (pyOrStr (pyOrStr (pyOrStr r.logical_date r.execution_date) r.start_date) (some "")).getD ""

/-- Python `<` on strings, on the character lists: lexicographic comparison by
code point. -/
def charListLt : List Char → List Char → Bool
  | [], [] => false
  | [], _ :: _ => true
  | _ :: _, [] => false
  | a :: as, b :: bs =>
    if a.toNat < b.toNat then true
    else if b.toNat < a.toNat then false
    else charListLt as bs

/-- Python `a < b` on two strings. -/
def strLtB (a b : String) : Bool := charListLt a.data b.data

/-- Insert a record into a list already sorted descending by `tsKey`, keeping
it after every strictly greater key and before equal ones that were inserted
earlier — the placement a stable descending sort gives an earlier element. -/
def insertByTs (x : RunRec) : List RunRec → List RunRec
  | [] => [x]
  | y :: ys => if strLtB (tsKey x) (tsKey y) then y :: insertByTs x ys else x :: y :: ys

/-- Interface model of `sorted(runs, key=_ts, reverse=True)` (line 118): a
stable insertion sort, descending by `tsKey`. -/
def sortRunsDesc : List RunRec → List RunRec
  | [] => []
  | x :: xs => insertByTs x (sortRunsDesc xs)

/-- The summary dict built from the most recent run, lines 120-129. -/
structure LatestSummary where
  dag_id : String
  run_id : Option String
  state : String
  logical_date : Option String
  start_date : Option String
  end_date : Option String
  external_trigger : Option Bool
  conf : Option String
  deriving DecidableEq

/-- Build the summary dict of `get_latest_dag_run_status` from the selected
record (lines 120-129): `state` is `(latest.get("state") or "").lower()` and
`logical_date` falls back to `execution_date`. -/
def mkLatestSummary (dag_id : String) (latest : RunRec) : LatestSummary :=
  { dag_id := dag_id
    run_id := latest.run_id
    state := strLower ((pyOrStr latest.state (some "")).getD "")
    logical_date := pyOrStr latest.logical_date latest.execution_date
    start_date := latest.start_date
    end_date := latest.end_date
    external_trigger := latest.external_trigger
    conf := latest.conf }

/-- `list_dag_runs.get_latest_dag_run_status`, lines 105-129, applied to the
already-extracted run records: `None` for an empty collection, otherwise the
summary of the head of the descending stable sort (`runs_sorted[0]`). -/
def get_latest_dag_run_status (dag_id : String) (runs : List RunRec) : Option LatestSummary :=
  if runs.isEmpty then none
  else
    match sortRunsDesc runs with
    | [] => none
    | latest :: _ => some (mkLatestSummary dag_id latest)

/-- The backend response to an `executeAirflowCommand` POST, at the interface
the launchers consume: the HTTP status and the three handle fields, each
possibly absent from the response body. -/
structure ExecResponse where
  status : Nat
  executionId : Option String
  pod : Option String
  podNamespace : Option String
  deriving DecidableEq

/-- `list_dag_runs._execute_airflow_command`, lines 37-42 (the same shape as
`check_dag_status._exec_airflow_command`, lines 35-38, and
`composer_api.trigger_dag_run`, lines 55-61): `_post_or_raise` raises
`RuntimeError` on status >= 400 (`raise_for_status` in the two siblings);
afterwards each of the three required fields is read with `resp[...]`, so a
missing field raises `KeyError`.  Raising is `Except.error`. -/
def execute_airflow_command (resp : ExecResponse) : Except String (String × String × String) :=
  if 400 ≤ resp.status then
    .error ("HTTP " ++ toString resp.status ++ " POST executeAirflowCommand")
  else
    match resp.executionId with
    | none => .error "KeyError: executionId"
    | some e =>
      match resp.pod with
      | none => .error "KeyError: pod"
      | some p =>
        match resp.podNamespace with
        | none => .error "KeyError: podNamespace"
        | some n => .ok (e, p, n)

/-! ## Helper lemmas -/

theorem consumeOutput_snd (output : List LogLine) :
    ∀ (c : Nat) (logs : List String),
      (consumeOutput c logs output).2 = logs ++ output.map LogLine.content := by
  induction output with
  | nil => intro c logs; simp [consumeOutput]
  | cons l out ih =>
    intro c logs
    show (consumeOutput (l.lineNumber + 1) (logs ++ [l.content]) out).2 = _
    rw [ih]
    simp

theorem consumeOutput_fst (output : List LogLine) :
    ∀ (c : Nat) (logs : List String),
      (consumeOutput c logs output).1 =
        match output.getLast? with
        | none => c
        | some l => l.lineNumber + 1 := by
  induction output with
  | nil => intro c logs; simp [consumeOutput]
  | cons l out ih =>
    intro c logs
    show (consumeOutput (l.lineNumber + 1) (logs ++ [l.content]) out).1 = _
    rw [ih]
    cases out with
    | nil => simp
    | cons h t =>
      rcases hg : (h :: t).getLast? with _ | x
      · simp at hg
      · simp [List.getLast?_cons_cons, hg]

theorem cursorStep_eq (c : Nat) (output : List LogLine) :
    cursorStep c output =
      match output.getLast? with
      | none => c
      | some l => l.lineNumber + 1 := by
  rw [cursorStep, consumeOutput_fst]

theorem cursorTrace_head (s : Nat) (bs : List (List LogLine)) :
    (cursorTrace s bs).head? = some s := by
  cases bs <;> rfl

theorem cursorStep_nil (c : Nat) : cursorStep c [] = c := rfl

theorem cursorStep_last {b : List LogLine} {l : LogLine} (h : b.getLast? = some l) (c : Nat) :
    cursorStep c b = l.lineNumber + 1 := by
  rw [cursorStep_eq, h]

theorem getLast?_mem_list {α : Type} {l : List α} {a : α} (h : l.getLast? = some a) : a ∈ l := by
  obtain ⟨hne, heq⟩ :=
    List.mem_getLast?_eq_getLast (l := l) (x := a) (by rw [Option.mem_def]; exact h)
  rw [heq]
  exact List.getLast_mem hne

theorem trigger_poll_no_end (t : Nat) :
    ∀ (rs : List PollResponse) (c : Nat) (logs : List String),
      (∀ r ∈ rs, r.outputEnd = false) →
      trigger_poll t rs c logs =
        ⟨none, some (timeoutMsgTrigger t),
         logs ++ ((rs.map PollResponse.output).flatten).map LogLine.content, false⟩ := by
  intro rs
  induction rs with
  | nil => intro c logs _; simp [trigger_poll]
  | cons r rest ih =>
    intro c logs h
    have hr : r.outputEnd = false := h r (List.mem_cons_self r rest)
    have hrest : ∀ x ∈ rest, x.outputEnd = false := fun x hx => h x (List.mem_cons_of_mem r hx)
    rw [trigger_poll, hr]
    simp only [Bool.false_eq_true, if_false]
    rw [ih _ _ hrest, consumeOutput_snd]
    simp

theorem trigger_poll_with_end (t : Nat) :
    ∀ (rs : List PollResponse) (lastR : PollResponse) (c : Nat) (logs : List String),
      (∀ r ∈ rs, r.outputEnd = false) → lastR.outputEnd = true →
      trigger_poll t (rs ++ [lastR]) c logs =
        ⟨(lastR.exitInfo.getD ⟨none, none⟩).exitCode, (lastR.exitInfo.getD ⟨none, none⟩).error,
         logs ++ (((rs ++ [lastR]).map PollResponse.output).flatten).map LogLine.content,
         true⟩ := by
  intro rs
  induction rs with
  | nil =>
    intro lastR c logs _ hl
    rw [List.nil_append, trigger_poll, hl]
    simp [consumeOutput_snd]
  | cons r rest ih =>
    intro lastR c logs h hl
    have hr : r.outputEnd = false := h r (List.mem_cons_self r rest)
    have hrest : ∀ x ∈ rest, x.outputEnd = false := fun x hx => h x (List.mem_cons_of_mem r hx)
    rw [List.cons_append, trigger_poll, hr]
    simp only [Bool.false_eq_true, if_false]
    rw [ih _ _ _ hrest hl, consumeOutput_snd]
    simp

theorem check_poll_no_end (t : Nat) :
    ∀ (rs : List PollResponse) (c : Nat) (logs : List String),
      (∀ r ∈ rs, r.outputEnd = false) →
      poll_airflow_command_check t rs c logs =
        ⟨logs ++ ((rs.map PollResponse.output).flatten).map LogLine.content,
         none, some (timeoutMsgCheck t)⟩ := by
  intro rs
  induction rs with
  | nil => intro c logs _; simp [poll_airflow_command_check]
  | cons r rest ih =>
    intro c logs h
    have hr : r.outputEnd = false := h r (List.mem_cons_self r rest)
    have hrest : ∀ x ∈ rest, x.outputEnd = false := fun x hx => h x (List.mem_cons_of_mem r hx)
    rw [poll_airflow_command_check, hr]
    simp only [Bool.false_eq_true, if_false]
    rw [ih _ _ hrest, consumeOutput_snd]
    simp

theorem check_poll_with_end (t : Nat) :
    ∀ (rs : List PollResponse) (lastR : PollResponse) (c : Nat) (logs : List String),
      (∀ r ∈ rs, r.outputEnd = false) → lastR.outputEnd = true →
      poll_airflow_command_check t (rs ++ [lastR]) c logs =
        ⟨logs ++ (((rs ++ [lastR]).map PollResponse.output).flatten).map LogLine.content,
         (lastR.exitInfo.getD ⟨none, none⟩).exitCode,
         (lastR.exitInfo.getD ⟨none, none⟩).error⟩ := by
  intro rs
  induction rs with
  | nil =>
    intro lastR c logs _ hl
    rw [List.nil_append, poll_airflow_command_check, hl]
    simp [consumeOutput_snd]
  | cons r rest ih =>
    intro lastR c logs h hl
    have hr : r.outputEnd = false := h r (List.mem_cons_self r rest)
    have hrest : ∀ x ∈ rest, x.outputEnd = false := fun x hx => h x (List.mem_cons_of_mem r hx)
    rw [List.cons_append, poll_airflow_command_check, hr]
    simp only [Bool.false_eq_true, if_false]
    rw [ih _ _ _ hrest hl, consumeOutput_snd]
    simp

theorem lr_poll_no_end (t : Nat) :
    ∀ (rs : List PollResponse) (c : Nat) (logs : List String),
      (∀ r ∈ rs, r.outputEnd = false) →
      poll_airflow_command_lr t rs c logs = .error (timeoutMsgLR t) := by
  intro rs
  induction rs with
  | nil => intro c logs _; simp [poll_airflow_command_lr]
  | cons r rest ih =>
    intro c logs h
    have hr : r.outputEnd = false := h r (List.mem_cons_self r rest)
    have hrest : ∀ x ∈ rest, x.outputEnd = false := fun x hx => h x (List.mem_cons_of_mem r hx)
    rw [poll_airflow_command_lr, hr]
    simp only [Bool.false_eq_true, if_false]
    exact ih _ _ hrest

theorem charListLt_irrefl : ∀ as, charListLt as as = false := by
  intro as
  induction as with
  | nil => rfl
  | cons a as ih => simp [charListLt, ih]

theorem charListLt_asymm : ∀ as bs, charListLt as bs = true → charListLt bs as = false := by
  intro as
  induction as with
  | nil =>
    intro bs h
    cases bs with
    | nil => exact absurd h (by simp [charListLt])
    | cons b bs => rfl
  | cons a as ih =>
    intro bs h
    cases bs with
    | nil => exact absurd h (by simp [charListLt])
    | cons b bs =>
      rw [charListLt] at h ⊢
      by_cases hab : a.toNat < b.toNat
      · rw [if_neg (by omega), if_pos hab]
      · rw [if_neg hab] at h
        by_cases hba : b.toNat < a.toNat
        · rw [if_pos hba] at h
          exact absurd h (by simp)
        · rw [if_neg hba, if_neg hab]
          rw [if_neg hba] at h
          exact ih bs h

theorem charListLt_neg_trans :
    ∀ as bs cs, charListLt as bs = false → charListLt bs cs = false →
      charListLt as cs = false := by
  intro as
  induction as with
  | nil =>
    intro bs cs h1 h2
    cases bs with
    | nil =>
      cases cs with
      | nil => rfl
      | cons c cs => exact absurd h2 (by simp [charListLt])
    | cons b bs => exact absurd h1 (by simp [charListLt])
  | cons a as ih =>
    intro bs cs h1 h2
    cases bs with
    | nil =>
      cases cs with
      | nil => rfl
      | cons c cs => exact absurd h2 (by simp [charListLt])
    | cons b bs =>
      cases cs with
      | nil => rfl
      | cons c cs =>
        rw [charListLt] at h1 h2 ⊢
        by_cases hab : a.toNat < b.toNat
        · rw [if_pos hab] at h1
          exact absurd h1 (by simp)
        · rw [if_neg hab] at h1
          by_cases hbc : b.toNat < c.toNat
          · rw [if_pos hbc] at h2
            exact absurd h2 (by simp)
          · rw [if_neg hbc] at h2
            rw [if_neg (by omega : ¬ a.toNat < c.toNat)]
            by_cases hca : c.toNat < a.toNat
            · rw [if_pos hca]
            · rw [if_neg hca]
              have hba : ¬ b.toNat < a.toNat := by omega
              have hcb : ¬ c.toNat < b.toNat := by omega
              rw [if_neg hba] at h1
              rw [if_neg hcb] at h2
              exact ih bs cs h1 h2

theorem insertByTs_ne_nil (x : RunRec) (l : List RunRec) : insertByTs x l ≠ [] := by
  cases l with
  | nil => simp [insertByTs]
  | cons y ys =>
    rw [insertByTs]
    split <;> simp

theorem sortRunsDesc_head :
    ∀ (l : List RunRec) (h : RunRec) (t : List RunRec),
      sortRunsDesc l = h :: t →
      ∃ pre post,
        l = pre ++ h :: post ∧
        (∀ r ∈ l, strLtB (tsKey h) (tsKey r) = false) ∧
        (∀ r ∈ pre, strLtB (tsKey r) (tsKey h) = true) := by
  intro l
  induction l with
  | nil => intro h t heq; exact absurd heq (by simp [sortRunsDesc])
  | cons x xs ih =>
    intro h t heq
    rw [sortRunsDesc] at heq
    rcases hs : sortRunsDesc xs with _ | ⟨b, t2⟩
    · rw [hs, insertByTs] at heq
      cases heq
      have hxs : xs = [] := by
        cases xs with
        | nil => rfl
        | cons y ys =>
          exact absurd hs (by
            rw [sortRunsDesc]
            exact insertByTs_ne_nil y (sortRunsDesc ys))
      subst hxs
      refine ⟨[], [], by simp, ?_, by simp⟩
      intro r hr
      rw [List.mem_singleton] at hr
      subst hr
      exact charListLt_irrefl _
    · obtain ⟨pre2, post2, hdec, hmax, hpre⟩ := ih b t2 hs
      rw [hs, insertByTs] at heq
      by_cases hxb : strLtB (tsKey x) (tsKey b) = true
      · rw [if_pos hxb] at heq
        cases heq
        refine ⟨x :: pre2, post2, by rw [hdec, List.cons_append], ?_, ?_⟩
        · intro r hr
          rw [List.mem_cons] at hr
          rcases hr with hr | hr
          · subst hr; exact charListLt_asymm _ _ hxb
          · exact hmax r hr
        · intro r hr
          rw [List.mem_cons] at hr
          rcases hr with hr | hr
          · subst hr; exact hxb
          · exact hpre r hr
      · rw [if_neg hxb] at heq
        cases heq
        have hxble : strLtB (tsKey x) (tsKey b) = false := by
          cases hv : strLtB (tsKey x) (tsKey b)
          · rfl
          · exact absurd hv hxb
        refine ⟨[], xs, by simp, ?_, by simp⟩
        intro r hr
        rw [List.mem_cons] at hr
        rcases hr with hr | hr
        · subst hr; exact charListLt_irrefl _
        · exact charListLt_neg_trans _ _ _ hxble (hmax r hr)

theorem foldl_max_getLast :
    ∀ (xs : List Nat) (x acc : Nat), List.Pairwise (· < ·) xs → xs.getLast? = some x →
      acc ≤ x → xs.foldl Nat.max acc = x := by
  intro xs
  induction xs with
  | nil => intro x acc _ hg _; exact absurd hg (by simp)
  | cons a xs ih =>
    intro x acc hp hg hacc
    cases xs with
    | nil =>
      have hx : a = x := by
        simp only [List.getLast?_singleton, Option.some.injEq] at hg
        exact hg
      subst hx
      simp [Nat.max_eq_right hacc]
    | cons b xs2 =>
      rw [List.getLast?_cons_cons] at hg
      have hmem : x ∈ b :: xs2 := getLast?_mem_list hg
      have hax : a < x := (List.pairwise_cons.mp hp).1 x hmem
      have hp2 : List.Pairwise (· < ·) (b :: xs2) := (List.pairwise_cons.mp hp).2
      show List.foldl Nat.max (Nat.max acc a) (b :: xs2) = x
      exact ih x (Nat.max acc a) hp2 hg (Nat.max_le.mpr ⟨hacc, Nat.le_of_lt hax⟩)

theorem cursorStep_max (b : List LogLine) (hb : b ≠ [])
    (hp : List.Pairwise (· < ·) (b.map LogLine.lineNumber)) :
    ∀ c, cursorStep c b = batchMaxLine b + 1 := by
  intro c
  obtain ⟨l, hl⟩ : ∃ l, b.getLast? = some l := by
    cases hg : b.getLast? with
    | none => exact absurd (List.getLast?_eq_none_iff.mp hg) hb
    | some l => exact ⟨l, rfl⟩
  rw [cursorStep_eq, hl]
  have hmap : (b.map LogLine.lineNumber).getLast? = some l.lineNumber := by
    rw [List.getLast?_map, hl]
    rfl
  rw [batchMaxLine, foldl_max_getLast (b.map LogLine.lineNumber) l.lineNumber 0 hp hmap
    (Nat.zero_le _)]

theorem cursorTrace_mono :
    ∀ (bs : List (List LogLine)) (c : Nat),
      (∀ l ∈ bs.flatten, c ≤ l.lineNumber) →
      List.Pairwise (· < ·) (bs.flatten.map LogLine.lineNumber) →
      List.Chain' (· ≤ ·) (cursorTrace c bs) := by
  intro bs
  induction bs with
  | nil => intro c _ _; exact List.chain'_singleton c
  | cons b bs ih =>
    intro c hc hp
    rw [List.flatten_cons] at hc hp
    rw [List.map_append, List.pairwise_append] at hp
    obtain ⟨hpb, hpbs, hcross⟩ := hp
    have hcb : ∀ l ∈ b, c ≤ l.lineNumber := fun l hl => hc l (List.mem_append_left _ hl)
    have hcbs : ∀ l ∈ bs.flatten, c ≤ l.lineNumber :=
      fun l hl => hc l (List.mem_append_right _ hl)
    have hstep : c ≤ cursorStep c b ∧ ∀ l ∈ bs.flatten, cursorStep c b ≤ l.lineNumber := by
      cases b with
      | nil =>
        refine ⟨le_of_eq (cursorStep_nil c).symm, ?_⟩
        intro l hl
        rw [cursorStep_nil]
        exact hcbs l hl
      | cons x xs =>
        obtain ⟨lst, hlst⟩ : ∃ lst, (x :: xs).getLast? = some lst := by
          cases hg : (x :: xs).getLast? with
          | none => exact absurd (List.getLast?_eq_none_iff.mp hg) (by simp)
          | some l => exact ⟨l, rfl⟩
        have hlstmem : lst ∈ x :: xs := getLast?_mem_list hlst
        constructor
        · rw [cursorStep_last hlst]
          exact Nat.le_succ_of_le (hcb lst hlstmem)
        · intro l hl
          rw [cursorStep_last hlst]
          have hlt : lst.lineNumber < l.lineNumber := by
            refine hcross lst.lineNumber ?_ l.lineNumber ?_
            · exact List.mem_map_of_mem LogLine.lineNumber hlstmem
            · exact List.mem_map_of_mem LogLine.lineNumber hl
          omega
    show List.Chain' (· ≤ ·) (c :: cursorTrace (cursorStep c b) bs)
    rw [List.chain'_cons']
    constructor
    · intro y hy
      rw [cursorTrace_head] at hy
      cases hy
      exact hstep.1
    · exact ih (cursorStep c b) hstep.2 hpbs

theorem fallbackScanState_none (rid : String) :
    ∀ logs, (∀ line ∈ logs, containsSub line rid = false) →
      fallbackScanState rid logs = none := by
  intro logs
  induction logs with
  | nil => intro _; rfl
  | cons line rest ih =>
    intro h
    have hl : containsSub line rid = false := h line (List.mem_cons_self line rest)
    have hrest := fun x hx => h x (List.mem_cons_of_mem line hx)
    rw [fallbackScanState, hl]
    simp only [Bool.false_eq_true, if_false]
    exact ih hrest

theorem scanStateTokens_eq_find :
    ∀ l, scanStateTokens l =
      (l.find? (fun line => runStates.contains (strLower (strTrim line)))).map
        (fun line => strLower (strTrim line)) := by
  intro l
  induction l with
  | nil => rfl
  | cons line rest ih =>
    rw [scanStateTokens, List.find?_cons]
    cases hc : runStates.contains (strLower (strTrim line)) with
    | false => simpa [hc] using ih
    | true => simp [hc]

/-! ## Claims -/

/-- Claim C1, counterexample: the poll cursor is set to `lineNumber + 1` of
each delivered line with no monotonicity guard (`composer_api.py` line 99,
`check_dag_status.py` line 79, `list_dag_runs.py` line 70), so a response that
redelivers an already-seen lower line number rewinds it: after a batch with
line 5 the cursor is 6, and a following batch with line 2 drags it back to 3.
This refutes the claim that the cursor never decreases under redelivery. -/
theorem c1_counterexample :
    cursorTrace 0 [[⟨5, "x"⟩], [⟨2, "y"⟩]] = [0, 6, 3] ∧
    ¬ List.Chain' (· ≤ ·) (cursorTrace 0 [[⟨5, "x"⟩], [⟨2, "y"⟩]]) := by
  refine ⟨rfl, ?_⟩
  intro h
  have e : cursorTrace 0 [[⟨5, "x"⟩], [⟨2, "y"⟩]] = [0, 6, 3] := rfl
  rw [e, List.chain'_cons, List.chain'_cons] at h
  obtain ⟨-, h2, -⟩ := h
  omega

/-- Claim C1, amended: in the pollers of `trigger_dag_run` and `check_dag_status`
the cursor starts at 0 (in the `list_dag_runs` poller it starts at 1); after consuming a
batch it equals the last delivered `lineNumber + 1`, which is
`max(lineNumber) + 1` over the batch whenever the delivered line numbers are
strictly increasing; under strictly increasing line numbers across the whole
session the cursor never decreases — but a redelivered lower line number
rewinds it (see the counterexample). -/
theorem c1_amended_cursor_rule (batches : List (List LogLine))
    (hmono : List.Pairwise (· < ·) (batches.flatten.map LogLine.lineNumber)) :
    (cursorTrace 0 batches).head? = some 0 ∧
    (cursorTrace 1 batches).head? = some 1 ∧
    List.Chain' (· ≤ ·) (cursorTrace 0 batches) ∧
    (∀ pre b post, batches = pre ++ b :: post → b ≠ [] →
      ∀ c, cursorStep c b = batchMaxLine b + 1) := by
  refine ⟨cursorTrace_head 0 batches, cursorTrace_head 1 batches, ?_, ?_⟩
  · exact cursorTrace_mono batches 0 (fun l _ => Nat.zero_le _) hmono
  · intro pre b post hdec hb c
    have hpb : List.Pairwise (· < ·) (b.map LogLine.lineNumber) := by
      rw [hdec, List.flatten_append, List.map_append, List.pairwise_append] at hmono
      obtain ⟨-, h2, -⟩ := hmono
      rw [List.flatten_cons, List.map_append, List.pairwise_append] at h2
      exact h2.1
    exact cursorStep_max b hb hpb c

/-- Concrete batches for the C1 witness. -/
def c1wBatches : List (List LogLine) := [[⟨0, "a"⟩, ⟨1, "b"⟩], [⟨3, "c"⟩]]

/-- Witness for the amended C1 at a concrete strictly increasing session. -/
theorem c1_amended_cursor_rule_witness :
    List.Pairwise (· < ·) (c1wBatches.flatten.map LogLine.lineNumber) ∧
    List.Chain' (· ≤ ·) (cursorTrace 0 c1wBatches) ∧
    cursorTrace 0 c1wBatches = [0, 2, 4] :=
  ⟨by decide, (c1_amended_cursor_rule c1wBatches (by decide)).2.2.1, rfl⟩

/-- Claim C2, counterexample: `list_dag_runs._poll_airflow_command` raises
`TimeoutError` when the budget elapses (line 55) instead of returning
`terminal=false` with the accumulated logs — here the partial log delivered
before the timeout is discarded and the call fails. -/
theorem c2_counterexample :
    poll_airflow_command_lr_run 180 [⟨[⟨1, "partial log"⟩], false, none⟩]
      = Except.error "Polling timed out after 180s" := rfl

/-- Claim C2, amended: when `outputEnd` never becomes true before the budget
elapses, the poll loop of `trigger_dag_run` and the
`_poll_airflow_command` of `check_dag_status` return normally with no exit code, an error carrying
the timeout indication, and all logs accumulated so far;
`list_dag_runs._poll_airflow_command`, however, raises `TimeoutError`. -/
theorem c2_amended_timeout (t : Nat) (rs : List PollResponse)
    (h : ∀ r ∈ rs, r.outputEnd = false) :
    trigger_poll_run t rs
        = ⟨none, some (timeoutMsgTrigger t),
           ((rs.map PollResponse.output).flatten).map LogLine.content, false⟩ ∧
    poll_airflow_command_check_run t rs
        = ⟨((rs.map PollResponse.output).flatten).map LogLine.content,
           none, some (timeoutMsgCheck t)⟩ ∧
    poll_airflow_command_lr_run t rs = .error (timeoutMsgLR t) := by
  refine ⟨?_, ?_, ?_⟩
  · rw [trigger_poll_run, trigger_poll_no_end t rs 0 [] h, List.nil_append]
  · rw [poll_airflow_command_check_run, check_poll_no_end t rs 0 [] h, List.nil_append]
  · rw [poll_airflow_command_lr_run, lr_poll_no_end t rs 1 [] h]

/-- Witness for the amended C2 at a concrete timed-out session. -/
theorem c2_amended_timeout_witness :
    (∀ r ∈ [(⟨[⟨0, "hello"⟩], false, none⟩ : PollResponse)], r.outputEnd = false) ∧
    trigger_poll_run 300 [⟨[⟨0, "hello"⟩], false, none⟩]
        = ⟨none, some (timeoutMsgTrigger 300), ["hello"], false⟩ ∧
    poll_airflow_command_lr_run 300 [⟨[⟨0, "hello"⟩], false, none⟩]
        = .error (timeoutMsgLR 300) := by
  refine ⟨by decide, ?_, ?_⟩
  · exact (c2_amended_timeout 300 [⟨[⟨0, "hello"⟩], false, none⟩] (by decide)).1
  · exact (c2_amended_timeout 300 [⟨[⟨0, "hello"⟩], false, none⟩] (by decide)).2.2

/-- Claim C3: for a session whose delivered line numbers are strictly
increasing and whose final response signals `outputEnd`, both pollers
accumulate exactly the concatenation of all `content` fields in delivery
(= line-number) order, with nothing skipped and nothing duplicated, and the
loop exits through the terminal branch. -/
theorem c3_logs_concatenation (t : Nat) (rs : List PollResponse) (lastR : PollResponse)
    (hmono : List.Pairwise (· < ·)
        ((((rs ++ [lastR]).map PollResponse.output).flatten).map LogLine.lineNumber))
    (hmid : ∀ r ∈ rs, r.outputEnd = false)
    (hlast : lastR.outputEnd = true) :
    (trigger_poll_run t (rs ++ [lastR])).logs
        = (((rs ++ [lastR]).map PollResponse.output).flatten).map LogLine.content ∧
    (trigger_poll_run t (rs ++ [lastR])).terminal = true ∧
    (poll_airflow_command_check_run t (rs ++ [lastR])).logs
        = (((rs ++ [lastR]).map PollResponse.output).flatten).map LogLine.content := by
  rw [trigger_poll_run, poll_airflow_command_check_run,
    trigger_poll_with_end t rs lastR 0 [] hmid hlast,
    check_poll_with_end t rs lastR 0 [] hmid hlast]
  exact ⟨by simp, rfl, by simp⟩

/-- Concrete non-final response list for the C3 witness. -/
def c3wRs : List PollResponse := [⟨[⟨0, "a"⟩], false, none⟩]

/-- Concrete final response for the C3 witness. -/
def c3wLast : PollResponse := ⟨[⟨1, "b"⟩], true, some ⟨some 0, none⟩⟩

/-- Witness for C3 at a concrete two-response session. -/
theorem c3_logs_concatenation_witness :
    List.Pairwise (· < ·)
        ((((c3wRs ++ [c3wLast]).map PollResponse.output).flatten).map LogLine.lineNumber) ∧
    (trigger_poll_run 300 (c3wRs ++ [c3wLast])).logs = ["a", "b"] ∧
    (trigger_poll_run 300 (c3wRs ++ [c3wLast])).terminal = true := by
  refine ⟨by decide, ?_, ?_⟩
  · rw [(c3_logs_concatenation 300 c3wRs c3wLast (by decide) (by decide) rfl).1]
    rfl
  · exact (c3_logs_concatenation 300 c3wRs c3wLast (by decide) (by decide) rfl).2.1

/-- Claim C4: the structured-payload extraction in `list_dag_runs` locates the first
`[` and the last `]`; a missing bracket or a last `]` not strictly after the
first `[` yields the empty array, a JSON parse failure on the enclosed
substring yields the empty array (the exception is caught), and a successful
parse yields exactly the parsed value — the function is total, so it never
raises. -/
theorem c4_extract_control_flow :
    (∀ payload, strFind payload '[' = none → extract_runs payload = Json.arr []) ∧
    (∀ payload, strRFind payload ']' = none → extract_runs payload = Json.arr []) ∧
    (∀ payload f l, strFind payload '[' = some f → strRFind payload ']' = some l → l ≤ f →
        extract_runs payload = Json.arr []) ∧
    (∀ payload f l, strFind payload '[' = some f → strRFind payload ']' = some l → f < l →
        jsonLoads (strSlice payload f (l + 1)) = none → extract_runs payload = Json.arr []) ∧
    (∀ payload f l j, strFind payload '[' = some f → strRFind payload ']' = some l → f < l →
        jsonLoads (strSlice payload f (l + 1)) = some j → extract_runs payload = j) := by
  refine ⟨?_, ?_, ?_, ?_, ?_⟩
  · intro payload h
    simp [extract_runs, h]
  · intro payload h
    rcases hf : strFind payload '[' with _ | f <;> simp [extract_runs, hf, h]
  · intro payload f l hf hl hle
    simp [extract_runs, hf, hl, hle]
  · intro payload f l hf hl hlt hj
    simp [extract_runs, hf, hl, hj, show ¬ l ≤ f from by omega]
  · intro payload f l j hf hl hlt hj
    simp [extract_runs, hf, hl, hj, show ¬ l ≤ f from by omega]

/-- Witness for C4: a payload with no bracket, and a bracketed payload whose
inside is not valid JSON, both extract to the empty array. -/
theorem c4_extract_control_flow_witness :
    strFind "abc" '[' = none ∧
    extract_runs "abc" = Json.arr [] ∧
    strFind "[oops]" '[' = some 0 ∧
    strRFind "[oops]" ']' = some 5 ∧
    (0 : Nat) < 5 ∧
    jsonLoads (strSlice "[oops]" 0 6) = none ∧
    extract_runs "[oops]" = Json.arr [] :=
  ⟨rfl, c4_extract_control_flow.1 "abc" rfl, rfl, rfl, by decide, rfl,
   c4_extract_control_flow.2.2.2.1 "[oops]" 0 5 rfl rfl (by decide) rfl⟩

/-- Claim C5: `get_latest_dag_run_status` on a nonempty collection returns the
summary of a record whose recency key (`logical_date`, then `execution_date`,
then `start_date`, then `""`) is not exceeded by the key of any record, and every
record placed before it in the original order has a strictly smaller key —
the first maximum, matching a stable descending sort. -/
theorem c5_latest_selection (dag : String) (runs : List RunRec) (hne : runs ≠ []) :
    ∃ pre latest post,
      runs = pre ++ latest :: post ∧
      get_latest_dag_run_status dag runs = some (mkLatestSummary dag latest) ∧
      (∀ r ∈ runs, strLtB (tsKey latest) (tsKey r) = false) ∧
      (∀ r ∈ pre, strLtB (tsKey r) (tsKey latest) = true) := by
  rcases hs : sortRunsDesc runs with _ | ⟨latest, t⟩
  · exfalso
    cases runs with
    | nil => exact hne rfl
    | cons x xs =>
      rw [sortRunsDesc] at hs
      exact insertByTs_ne_nil x (sortRunsDesc xs) hs
  · obtain ⟨pre, post, hdec, hmax, hpre⟩ := sortRunsDesc_head runs latest t hs
    have hie : runs.isEmpty = false := by
      cases runs with
      | nil => exact absurd rfl hne
      | cons a b => rfl
    refine ⟨pre, latest, post, hdec, ?_, hmax, hpre⟩
    simp [get_latest_dag_run_status, hie, hs]

/-- Concrete record collection for the C5 witness (the example dates of the spec). -/
def c5wRuns : List RunRec :=
  [⟨some "r1", some "queued", some "2025-01-01", none, none, none, none, none⟩,
   ⟨some "r2", some "success", some "2025-02-01", none, none, none, none, none⟩,
   ⟨some "r3", some "running", some "2025-01-15", none, none, none, none, none⟩]

/-- Witness for C5: on records dated 2025-01-01 / 2025-02-01 / 2025-01-15 the
resolver returns the record dated 2025-02-01. -/
theorem c5_latest_selection_witness :
    c5wRuns ≠ [] ∧
    (∃ pre latest post,
      c5wRuns = pre ++ latest :: post ∧
      get_latest_dag_run_status "d" c5wRuns = some (mkLatestSummary "d" latest) ∧
      (∀ r ∈ c5wRuns, strLtB (tsKey latest) (tsKey r) = false) ∧
      (∀ r ∈ pre, strLtB (tsKey r) (tsKey latest) = true)) ∧
    get_latest_dag_run_status "d" c5wRuns
      = some (mkLatestSummary "d"
          ⟨some "r2", some "success", some "2025-02-01", none, none, none, none, none⟩) :=
  ⟨by decide, c5_latest_selection "d" c5wRuns (by decide), by decide⟩

/-- Claim C6: the token scan of `get_dag_run_state_by_logical_date` walks the log
lines in reverse and returns the first line whose stripped, lowered content is
in the closed state set (so the last matching line wins); any returned token
is in the set; and on `["queued", "running", "success"]` it returns
`"success"`. -/
theorem c6_state_token_scan :
    (∀ logs, detect_state logs =
        (logs.reverse.find? (fun line => runStates.contains (strLower (strTrim line)))).map
          (fun line => strLower (strTrim line))) ∧
    (∀ logs s, detect_state logs = some s → runStates.contains s = true) ∧
    detect_state ["queued", "running", "success"] = some "success" := by
  refine ⟨fun logs => scanStateTokens_eq_find logs.reverse, ?_, rfl⟩
  intro logs s h
  rw [detect_state, scanStateTokens_eq_find] at h
  rcases Option.map_eq_some'.mp h with ⟨line, hfind, hs⟩
  have hp := List.find?_some hfind
  rw [← hs]
  exact hp

/-- Witness for C6 at the concrete log list from the spec. -/
theorem c6_state_token_scan_witness :
    detect_state ["queued", "running", "success"] = some "success" ∧
    runStates.contains "success" = true :=
  ⟨rfl, c6_state_token_scan.2.1 ["queued", "running", "success"] "success" rfl⟩

/-- Claim C7: an empty collection makes `get_latest_dag_run_status` return
`None`, and when neither the parsed JSON records nor the text fallback match
the requested run id, `get_dag_run_state_by_run_id` reports `state = None` —
both are normal returns of total functions, not exceptions. -/
theorem c7_not_found :
    (∀ dag, get_latest_dag_run_status dag [] = none) ∧
    (∀ (dag rid : String) (out : PollOut),
      runIdJsonMatch rid out.logs = none →
      (∀ line ∈ out.logs, containsSub line rid = false) →
      (get_dag_run_state_by_run_id_core dag rid out).runState = none) := by
  constructor
  · intro dag; rfl
  · intro dag rid out hjson hsub
    have hfb : fallbackScanState rid out.logs = none := fallbackScanState_none rid out.logs hsub
    by_cases hg : (out.exit_code == some 0 && !out.logs.isEmpty) = true
    · rw [get_dag_run_state_by_run_id_core, if_pos hg]
      rcases he : tryJsonExtract rid out.logs with e | ⟨b, m⟩
      · simp [he, mkRunIdFallbackResult, RunIdResult.runState, hfb]
      · rw [runIdJsonMatch, he] at hjson
        cases m with
        | some mm => exact absurd hjson (by simp)
        | none =>
          cases b with
          | true => simp [he, RunIdResult.runState]
          | false => simp [he, mkRunIdFallbackResult, RunIdResult.runState, hfb]
    · rw [get_dag_run_state_by_run_id_core, if_neg hg]
      simp [mkRunIdFallbackResult, RunIdResult.runState, hfb]

/-- Witness for C7: the empty collection, and a successful poll whose single
log line mentions neither a JSON array nor the requested run id. -/
theorem c7_not_found_witness :
    get_latest_dag_run_status "d" [] = none ∧
    runIdJsonMatch "x" ["hello"] = none ∧
    (get_dag_run_state_by_run_id_core "d" "x" ⟨["hello"], some 0, none⟩).runState = none :=
  ⟨c7_not_found.1 "d", rfl,
   c7_not_found.2 "d" "x" ⟨["hello"], some 0, none⟩ rfl (by decide)⟩

/-- Claim C8: launching fails when the transport status is non-success
(>= 400) or when any of the three required handle fields is missing from the
response body, and succeeds exactly with the triple of those fields
otherwise. -/
theorem c8_launch_contract (resp : ExecResponse) :
    (400 ≤ resp.status → ∃ m, execute_airflow_command resp = .error m) ∧
    (resp.status < 400 →
      (resp.executionId = none ∨ resp.pod = none ∨ resp.podNamespace = none) →
      ∃ m, execute_airflow_command resp = .error m) ∧
    (∀ e p n, resp.status < 400 → resp.executionId = some e → resp.pod = some p →
      resp.podNamespace = some n → execute_airflow_command resp = .ok (e, p, n)) := by
  refine ⟨?_, ?_, ?_⟩
  · intro h
    exact ⟨_, by rw [execute_airflow_command, if_pos h]⟩
  · intro h hmiss
    rw [execute_airflow_command, if_neg (by omega)]
    rcases hmiss with hm | hm | hm
    · rw [hm]
      exact ⟨_, rfl⟩
    · cases he : resp.executionId with
      | none => exact ⟨_, rfl⟩
      | some e => rw [hm]; exact ⟨_, rfl⟩
    · cases he : resp.executionId with
      | none => exact ⟨_, rfl⟩
      | some e =>
        cases hp : resp.pod with
        | none => exact ⟨_, rfl⟩
        | some p => rw [hm]; exact ⟨_, rfl⟩
  · intro e p n h he hp hn
    rw [execute_airflow_command, if_neg (by omega), he, hp, hn]

/-- Witness for C8: a 500 response fails even with all fields present, and a
200 response with all three fields yields exactly that handle. -/
theorem c8_launch_contract_witness :
    (400 ≤ (500 : Nat)) ∧
    (∃ m, execute_airflow_command ⟨500, some "e", some "p", some "n"⟩ = .error m) ∧
    ((200 : Nat) < 400) ∧
    execute_airflow_command ⟨200, some "e", some "p", some "n"⟩ = .ok ("e", "p", "n") :=
  ⟨by decide, (c8_launch_contract ⟨500, some "e", some "p", some "n"⟩).1 (by decide), by decide,
   (c8_launch_contract ⟨200, some "e", some "p", some "n"⟩).2.2 "e" "p" "n" (by decide)
     rfl rfl rfl⟩

/-- Claim C9: on the concrete log blob from the spec, structured extraction returns
exactly one record, whose `run_id` is `"a"` and whose `state` is
`"success"`. -/
theorem c9_round_trip :
    extract_runs "noise\n[\x7b\"run_id\":\"a\",\"state\":\"success\"\x7d]\nmore noise"
        = Json.arr [Json.obj [("run_id", Json.str "a"), ("state", Json.str "success")]] ∧
    jGet [("run_id", Json.str "a"), ("state", Json.str "success")] "run_id"
        = some (Json.str "a") ∧
    jGet [("run_id", Json.str "a"), ("state", Json.str "success")] "state"
        = some (Json.str "success") :=
  ⟨rfl, rfl, rfl⟩

/-- Claim C10: `get_dag_run_state_by_run_id` attempts JSON extraction only
when the polled exit code is 0 and at least one log line was captured
(line 159); for a missing or nonzero exit code, or empty logs, the result is
exactly the text-fallback result, even if the logs contain a well-formed JSON
array. -/
theorem c10_json_guard (dag rid : String) (out : PollOut)
    (h : out.exit_code ≠ some 0 ∨ out.logs = []) :
    get_dag_run_state_by_run_id_core dag rid out = mkRunIdFallbackResult dag rid out := by
  have hg : (out.exit_code == some 0 && !out.logs.isEmpty) = false := by
    rcases h with h | h
    · rw [beq_eq_false_iff_ne.mpr h, Bool.false_and]
    · rw [h]
      simp
  rw [get_dag_run_state_by_run_id_core]
  simp [hg]

/-- Concrete poll result for the C10 witness: a timed-out poll (no exit code)
whose log nonetheless holds a well-formed matching JSON array. -/
def c10wOut : PollOut := ⟨["[\x7b\"run_id\":\"a\",\"state\":\"success\"\x7d]"], none, none⟩

/-- Witness for C10: with no exit code the JSON path is skipped — the fallback
finds no state even though the JSON path would have found `"success"`. -/
theorem c10_json_guard_witness :
    (c10wOut.exit_code ≠ some 0 ∨ c10wOut.logs = []) ∧
    get_dag_run_state_by_run_id_core "d" "a" c10wOut = mkRunIdFallbackResult "d" "a" c10wOut ∧
    (get_dag_run_state_by_run_id_core "d" "a" c10wOut).runState = none ∧
    runIdJsonMatch "a" c10wOut.logs = some ⟨"success", none⟩ :=
  ⟨Or.inl (by decide), c10_json_guard "d" "a" c10wOut (Or.inl (by decide)), rfl, rfl⟩
